import Mathlib

/-!
Verification of `generate-darwin-source-and-headers.py`, a build-orchestration
script that stages architecture-specific source and header files into
per-platform directories, wraps them in preprocessor guards, runs an external
`configure` step per target, and emits umbrella headers dispatching to the
architecture-suffixed header variants.

The development shallowly embeds the script:
* pure path/string helpers (`os.path.basename`, `os.path.splitext`,
  `os.path.join`) as structural functions on character lists;
* the filesystem as an association list from path to file contents;
* `move_file` / `copy_files` / `copy_src_platform_files` as functions on that
  filesystem, returning `Except` for the file-not-found failure mode;
* `mkdir_p` over a directory state with an error oracle for `os.makedirs`;
* the working-directory discipline of `build_target` (the `try`/`finally`
  around the `configure` call) as explicit state passing;
* the header registry (`collections.defaultdict(set)`) as an association list
  from header filename to a duplicate-free list of
  (guard prefix, architecture, guard suffix) triples;
* the driver `generate_source_and_headers` / `__main__` as a trace semantics:
  a list of events (staging steps, build-directory creation, configure runs,
  header staging, umbrella-header writes) parameterised by an oracle giving
  each platform's configure outcome and the header files its build produces.
-/

/-! ## Path helpers -/

/-- Characters of `os.path.basename` restricted to the final component:
everything after the last `/`. -/
def basenameChars (cs : List Char) : List Char :=
  (cs.reverse.takeWhile (fun c => c ≠ '/')).reverse

/-- `os.path.basename` for the paths this script handles. -/
def basename (s : String) : String :=
  String.mk (basenameChars s.data)

/-- Split a character list at its first `.`: returns the part before and the
part after (the dot itself is dropped), or `none` when there is no dot. -/
def breakAtFirstDot : List Char → Option (List Char × List Char)
  | [] => none
  | c :: cs =>
    if c = '.' then some ([], cs)
    else
      match breakAtFirstDot cs with
      | none => none
      | some (a, b) => some (c :: a, b)

/-- `os.path.splitext` on a bare filename, as character lists: split at the
last dot, unless every character before that dot is itself a dot (CPython's
rule making `.bashrc` have no extension). -/
def splitextChars (cs : List Char) : List Char × List Char :=
  match breakAtFirstDot cs.reverse with
  | none => (cs, [])
  | some (pre, post) =>
    if post.all (fun c => c = '.') then (cs, [])
    else (post.reverse, '.' :: pre.reverse)

/-- `os.path.splitext` on a bare filename. -/
def splitext (s : String) : String × String :=
  let r := splitextChars s.data
  (String.mk r.1, String.mk r.2)

/-- Does the string start with `/` (an absolute path)? -/
def startsWithSlash (s : String) : Bool :=
  match s.data with
  | [] => false
  | c :: _ => c = '/'

/-- Does the string end with `/`? -/
def endsWithSlash (s : String) : Bool :=
  match s.data.getLast? with
  | some c => c = '/'
  | none => false

/-- `os.path.join` for two components: an absolute second component replaces
the first; an empty first component yields the second; otherwise the parts are
joined with exactly one `/`. -/
def joinPath (a b : String) : String :=
  if startsWithSlash b then b
  else if a = "" then b
  else if endsWithSlash a then a ++ b
  else a ++ "/" ++ b

example : joinPath "src" "x86" = "src/x86" := by decide
example : splitext "ffi.c" = ("ffi", ".c") := by decide
example : splitext "win64.S" = ("win64", ".S") := by decide
example : basename "build_macosx-x86_64/ffi.h" = "ffi.h" := by decide

/-! ## Platform descriptors -/

/-- One platform descriptor class of the script.  The fields `pfx` and `sfx`
embed the Python class attributes `prefix` and `suffix` (those identifiers are
not usable as Lean field names). -/
structure Platform where
  directory : String
  sdk : String
  arch : String
  triple : String
  version_min : String
  pfx : String
  sfx : String
  src_dir : String
  src_files : List String
  hdr_files : List String
deriving DecidableEq, Repr

def ios_simulator_platform : Platform :=
  { directory := "darwin_ios", sdk := "iphonesimulator", arch := "i386",
    triple := "i386-apple-darwin11", version_min := "-miphoneos-version-min=8.0",
    pfx := "#ifdef __i386__\n\n", sfx := "\n\n#endif", src_dir := "x86",
    src_files := ["sysv.S", "ffi.c"], hdr_files := ["internal.h"] }

def ios_simulator64_platform : Platform :=
  { directory := "darwin_ios", sdk := "iphonesimulator", arch := "x86_64",
    triple := "x86_64-apple-darwin13", version_min := "-miphoneos-version-min=8.0",
    pfx := "#ifdef __x86_64__\n\n", sfx := "\n\n#endif", src_dir := "x86",
    src_files := ["unix64.S", "ffi64.c", "ffiw64.c", "win64.S"],
    hdr_files := ["internal64.h", "asmnames.h"] }

def ios_device_platform : Platform :=
  { directory := "darwin_ios", sdk := "iphoneos", arch := "armv7",
    triple := "arm-apple-darwin11", version_min := "-miphoneos-version-min=8.0",
    pfx := "#ifdef __arm__\n\n", sfx := "\n\n#endif", src_dir := "arm",
    src_files := ["sysv.S", "ffi.c"], hdr_files := ["internal.h"] }

def ios_device64_platform : Platform :=
  { directory := "darwin_ios", sdk := "iphoneos", arch := "arm64",
    triple := "aarch64-apple-darwin13", version_min := "-miphoneos-version-min=8.0",
    pfx := "#ifdef __arm64__\n\n", sfx := "\n\n#endif", src_dir := "aarch64",
    src_files := ["sysv.S", "ffi.c"], hdr_files := ["internal.h"] }

def tvos_simulator64_platform : Platform :=
  { directory := "darwin_tvos", sdk := "appletvsimulator", arch := "x86_64",
    triple := "x86_64-apple-darwin13", version_min := "-mappletvos-version-min=9.0",
    pfx := "#ifdef __x86_64__\n\n", sfx := "\n\n#endif", src_dir := "x86",
    src_files := ["unix64.S", "ffi64.c"], hdr_files := ["internal64.h"] }

def tvos_device64_platform : Platform :=
  { directory := "darwin_tvos", sdk := "appletvos", arch := "arm64",
    triple := "aarch64-apple-darwin13", version_min := "-mappletvos-version-min=9.0",
    pfx := "#ifdef __arm64__\n\n", sfx := "\n\n#endif", src_dir := "aarch64",
    src_files := ["sysv.S", "ffi.c"], hdr_files := ["internal.h"] }

def desktop_amd64_platform : Platform :=
  { directory := "darwin_osx", sdk := "macosx", arch := "x86_64",
    triple := "x86_64-apple-darwin10", version_min := "-mmacosx-version-min=10.6",
    pfx := "#ifdef __x86_64__\n\n", sfx := "\n\n#endif", src_dir := "x86",
    src_files := ["unix64.S", "ffi64.c", "ffiw64.c", "win64.S"],
    hdr_files := ["internal64.h", "asmnames.h"] }

def desktop_arm64_platform : Platform :=
  { directory := "darwin_osx", sdk := "macosx", arch := "arm64",
    triple := "aarch64-apple-darwin20", version_min := "-mmacosx-version-min=11.0",
    pfx := "#ifdef __arm64__\n\n", sfx := "\n\n#endif", src_dir := "aarch64",
    src_files := ["sysv.S", "ffi.c"], hdr_files := ["internal.h"] }

/-! ## Filesystem model and file staging -/

/-- The filesystem as an association list from path to file contents.
Writing an existing path overwrites it (Python `open(..., 'w')`). -/
abbrev Fs : Type := List (String × String)

def fsRead : Fs → String → Option String
  | [], _ => none
  | (q, c) :: rest, p => if q = p then some c else fsRead rest p

def fsWrite : Fs → String → String → Fs
  | [], p, c => [(p, c)]
  | (q, d) :: rest, p, c =>
    if q = p then (q, c) :: rest else (q, d) :: fsWrite rest p c

/-- The fixed allow-list of header filenames that `move_file` never renames
(order as written in the source). -/
def allowedHeaders : List String := ["internal64.h", "asmnames.h", "internal.h"]

/-- The output-filename computation of `move_file`: when a (truthy) file
suffix is requested and the filename is not allow-listed, append
`_<suffix>` to the stem before the extension. -/
def outFilename (filename : String) (file_suffix : Option String) : String :=
  match file_suffix with
  | none => filename
  | some fsfx =>
    if fsfx = "" then filename
    else if filename ∈ allowedHeaders then filename
    else (splitext filename).1 ++ "_" ++ fsfx ++ (splitext filename).2

/-- The bytes written by `move_file`: the guard prefix is written only when
truthy (non-empty), then the input file's contents, then the guard suffix
only when truthy.  `None` prefixes/suffixes (as passed by `copy_files`
defaults) are modelled as the empty string, which Python treats identically
under the truthiness test. -/
def wrapContent (pre content suf : String) : String :=
  (if pre = "" then "" else pre) ++ content ++ (if suf = "" then "" else suf)

inductive FsError where
  | fileNotFound
deriving DecidableEq

instance {ε α : Type} [DecidableEq ε] [DecidableEq α] : DecidableEq (Except ε α) :=
  fun x y =>
    match x, y with
    | Except.ok a, Except.ok b =>
      if h : a = b then Decidable.isTrue (by rw [h]) else Decidable.isFalse (by simp [h])
    | Except.error a, Except.error b =>
      if h : a = b then Decidable.isTrue (by rw [h]) else Decidable.isFalse (by simp [h])
    | Except.ok _, Except.error _ => Decidable.isFalse (by simp)
    | Except.error _, Except.ok _ => Decidable.isFalse (by simp)

/-- `move_file`: read `src_dir/filename`, write the wrapped contents to
`dst_dir/out_filename`.  (`mkdir_p` on the destination directory is modelled
separately, over the directory state; in this file-level model directory
creation cannot fail.)  A missing source file is the file-not-found error,
which aborts the run. -/
def move_file (fs : Fs) (src_dir dst_dir filename : String)
    (file_suffix : Option String) (pre suf : String) : Except FsError Fs :=
  match fsRead fs (joinPath src_dir filename) with
  | none => Except.error FsError.fileNotFound
  | some content =>
    Except.ok (fsWrite fs (joinPath dst_dir (outFilename filename file_suffix))
      (wrapContent pre content suf))

/-- `list_files` in explicit-filelist mode yields `os.path.basename` of each
entry. -/
def list_files_names (filelist : List String) : List String :=
  filelist.map basename

/-- The worker loop of `copy_files`: stage each name in turn, stopping at the
first failure. -/
def copyFilesGo (src_dir dst_dir : String) (file_suffix : Option String)
    (pre suf : String) : Fs → List String → Except FsError Fs
  | fs, [] => Except.ok fs
  | fs, n :: rest =>
    match move_file fs src_dir dst_dir n file_suffix pre suf with
    | Except.error e => Except.error e
    | Except.ok fs1 => copyFilesGo src_dir dst_dir file_suffix pre suf fs1 rest

/-- `copy_files` in explicit-filelist mode. -/
def copy_files (fs : Fs) (src_dir dst_dir : String) (filelist : List String)
    (file_suffix : Option String) (pre suf : String) : Except FsError Fs :=
  copyFilesGo src_dir dst_dir file_suffix pre suf fs (list_files_names filelist)

/-- Source directory used by `copy_src_platform_files`:
`os.path.join('src', platform.src_dir)`. -/
def platSrcDir (p : Platform) : String := joinPath "src" p.src_dir

/-- Destination directory used by `copy_src_platform_files`:
`os.path.join(platform.directory, 'src', platform.src_dir)`. -/
def platDstDir (p : Platform) : String :=
  joinPath (joinPath p.directory "src") p.src_dir

/-- `copy_src_platform_files`: stage the platform's source files with the
architecture suffix, then its header files with no suffix, both wrapped in
the platform's guard strings. -/
def copy_src_platform_files (fs : Fs) (p : Platform) : Except FsError Fs :=
  match copy_files fs (platSrcDir p) (platDstDir p) p.src_files
      (some p.arch) p.pfx p.sfx with
  | Except.error e => Except.error e
  | Except.ok fs1 =>
    copy_files fs1 (platSrcDir p) (platDstDir p) p.hdr_files none p.pfx p.sfx

example :
    copy_src_platform_files
      [("src/arm/sysv.S", "A"), ("src/arm/ffi.c", "B"), ("src/arm/internal.h", "C")]
      ios_device_platform =
    Except.ok
      [("src/arm/sysv.S", "A"), ("src/arm/ffi.c", "B"), ("src/arm/internal.h", "C"),
       ("darwin_ios/src/arm/sysv_armv7.S", "#ifdef __arm__\n\nA\n\n#endif"),
       ("darwin_ios/src/arm/ffi_armv7.c", "#ifdef __arm__\n\nB\n\n#endif"),
       ("darwin_ios/src/arm/internal.h", "#ifdef __arm__\n\nC\n\n#endif")] := by
  decide

/-! ## Header registry -/

/-- One `(guard prefix, architecture, guard suffix)` entry, exactly the tuple
`(platform.prefix, platform.arch, platform.suffix)` added by `build_target`. -/
abbrev Triple : Type := String × String × String

def tripleOf (p : Platform) : Triple := (p.pfx, p.arch, p.sfx)

/-- `collections.defaultdict(set)` keyed by header filename: an association
list (dict insertion order) whose values are duplicate-free lists enumerating
the Python set. -/
abbrev Registry : Type := List (String × List Triple)

def regLookup : Registry → String → Option (List Triple)
  | [], _ => none
  | (m, l) :: rest, n => if m = n then some l else regLookup rest n

/-- `platform_headers[filename].add(triple)`: create the entry when missing,
otherwise add the triple only when not already present (set semantics). -/
def regAdd : Registry → String → Triple → Registry
  | [], n, t => [(n, [t])]
  | (m, l) :: rest, n, t =>
    if m = n then (m, if t ∈ l then l else l ++ [t]) :: rest
    else (m, l) :: regAdd rest n t

/-- Record one platform's triple under every header filename in `names`
(the loop `for filename in list_files(...): platform_headers[filename].add(...)`). -/
def regAddList (t : Triple) : Registry → List String → Registry
  | R, [] => R
  | R, n :: ns => regAddList t (regAdd R n t) ns

/-- All registry additions performed by one `build_target` call, over the
header filenames its build directory was found to contain. -/
def regAddPlatform (R : Registry) (p : Platform) (names : List String) : Registry :=
  regAddList (tripleOf p) R names

/-- The triple `t` is recorded in the registry under name `n`. -/
def present (R : Registry) (n : String) (t : Triple) : Prop :=
  ∃ l, regLookup R n = some l ∧ t ∈ l

/-! ## Umbrella headers -/

/-- One guarded `#include` block of an umbrella header, from the format
string `'%s#include <%s_%s%s>\n%s\n'` applied to
(guard prefix, stem, architecture, extension, guard suffix). -/
def umbrellaBlock (stem ext : String) (t : Triple) : String :=
  t.1 ++ "#include <" ++ stem ++ "_" ++ t.2.1 ++ ext ++ ">\n" ++ t.2.2 ++ "\n"

/-- The body of an umbrella header: one block per recorded triple, in
enumeration order. -/
def umbrellaBody (stem ext : String) : List Triple → String
  | [] => ""
  | t :: ts => umbrellaBlock stem ext t ++ umbrellaBody stem ext ts

/-- The full contents written for the umbrella header `name`, whose stem and
extension come from `os.path.splitext(header_name)`. -/
def umbrellaContent (name : String) (ts : List Triple) : String :=
  umbrellaBody (splitext name).1 (splitext name).2 ts

/-- `needle` occurs contiguously inside `hay`. -/
def strContains (hay needle : String) : Prop :=
  needle.data <:+: hay.data

instance (hay needle : String) : Decidable (strContains hay needle) := by
  unfold strContains
  exact List.decidableInfix _ _

/-! ## `mkdir_p` over a directory state -/

inductive OsErr where
  | eexist
  | other (n : Nat)
deriving DecidableEq

/-- Directory state: the set of existing directories, plus the files living
under them (never touched by directory creation). -/
structure DirFs where
  dirs : List String
  files : List (String × String)
deriving DecidableEq

/-- `os.makedirs(path)`: raises `EEXIST` when the leaf directory already
exists; `fail` injects any other `OSError` (permissions, read-only
filesystem, ...); otherwise the directory is created and no file is
touched. -/
def makedirs (fail : Option OsErr) (st : DirFs) (path : String) : Except OsErr DirFs :=
  if path ∈ st.dirs then Except.error OsErr.eexist
  else
    match fail with
    | some e => Except.error e
    | none => Except.ok { st with dirs := path :: st.dirs }

/-- `mkdir_p`: swallow `EEXIST`, re-raise every other error. -/
def mkdir_p (fail : Option OsErr) (st : DirFs) (path : String) : Except OsErr DirFs :=
  match makedirs fail st path with
  | Except.ok st1 => Except.ok st1
  | Except.error e => if e = OsErr.eexist then Except.ok st else Except.error e

/-! ## Working-directory discipline of `build_target` -/

/-- Name of the per-target build directory:
`'build_%s' % ('%s-%s' % (platform.sdk, platform.arch))`. -/
def build_dir_name (p : Platform) : String :=
  "build_" ++ p.sdk ++ "-" ++ p.arch

inductive CfgErr where
  | nonzeroExit (code : Nat)
deriving DecidableEq

/-- Process state relevant to `os.getcwd()` / `os.chdir`. -/
structure CwdState where
  cwd : String
deriving DecidableEq

/-- Python `try: body finally: fin`: the finaliser runs on the state left by
the body whether or not the body raised, and the body's outcome (value or
exception) is then propagated. -/
def pyTryFinally {α ε : Type} (body : CwdState → Except ε α × CwdState)
    (fin : CwdState → CwdState) (s : CwdState) : Except ε α × CwdState :=
  let r := body s
  (r.1, fin r.2)

/-- The working-directory skeleton of `build_target`: save `os.getcwd()`,
`os.chdir(build_dir)`, run `subprocess.check_call(['../configure', ...])`
(outcome given by the oracle `configureRun`, keyed by the directory it runs
in), and restore the saved directory in the `finally` block. -/
def build_target_chdir (configureRun : String → Except CfgErr Unit)
    (p : Platform) (s : CwdState) : Except CfgErr Unit × CwdState :=
  let working_dir := s.cwd
  pyTryFinally
    (fun st =>
      let st1 : CwdState := { cwd := joinPath st.cwd (build_dir_name p) }
      (configureRun st1.cwd, st1))
    (fun _ => { cwd := working_dir })
    s

/-! ## Driver trace semantics -/

/-- Observable actions of one run of the script. -/
inductive Event where
  | stageCommon (src_dir dst_dir pattern : String)
  | stagePlatform (p : Platform)
  | mkBuildDir (p : Platform)
  | runConfigure (p : Platform)
  | stageBuildHeaders (p : Platform)
  | mkdirDir (path : String)
  | writeUmbrella (name : String) (content : String)
deriving DecidableEq

/-- Environment oracle for one run: whether each platform's `configure`
invocation exits zero, and which header filenames (basenames, from the two
`*.h` globs over the build directory and its `include` subdirectory) its
build produces. -/
structure BuildEnv where
  configureOk : Platform → Bool
  foundHeaders : Platform → List String

/-- The platforms processed by the staging loop and the build loop, in
program order: the iOS family (with `ios_simulator_platform` commented out in
the source), then tvOS, then OS X.  Both loops are guarded by the same three
flags, so they iterate exactly this list. -/
def enabledPlatforms (generate_osx generate_ios generate_tvos : Bool) : List Platform :=
  (if generate_ios then
    [ios_simulator64_platform, ios_device_platform, ios_device64_platform]
   else []) ++
  (if generate_tvos then [tvos_simulator64_platform, tvos_device64_platform] else []) ++
  (if generate_osx then [desktop_amd64_platform, desktop_arm64_platform] else [])

def stageEventsOf : List Platform → List Event
  | [] => []
  | q :: qs => Event.stagePlatform q :: stageEventsOf qs

/-- Events of the staging phase: the two common `copy_files` calls, then one
`copy_src_platform_files` per enabled platform. -/
def stagePhase (generate_osx generate_ios generate_tvos : Bool) : List Event :=
  Event.stageCommon "src" "darwin_common/src" "*.c" ::
  Event.stageCommon "include" "darwin_common/include" "*.h" ::
  stageEventsOf (enabledPlatforms generate_osx generate_ios generate_tvos)

/-- The build loop: for each platform create its build directory, run
`configure` (aborting the whole run on a non-zero exit), then stage the
discovered headers and record their registry triples. -/
def buildPhase (env : BuildEnv) : List Platform → Registry → List Event × Registry × Bool
  | [], R => ([], R, true)
  | p :: ps, R =>
    if env.configureOk p then
      let res := buildPhase env ps (regAddPlatform R p (env.foundHeaders p))
      (Event.mkBuildDir p :: Event.runConfigure p :: Event.stageBuildHeaders p :: res.1,
       res.2)
    else ([Event.mkBuildDir p, Event.runConfigure p], R, false)

/-- Umbrella-header writes: one file per registry entry, in dict order. -/
def umbrellaEvents : Registry → List Event
  | [] => []
  | (n, ts) :: rest => Event.writeUmbrella n (umbrellaContent n ts) :: umbrellaEvents rest

/-- `generate_source_and_headers`: common staging, per-platform staging, the
build loop over the enabled platforms starting from an empty registry, and --
only when every `configure` succeeded -- `mkdir_p('darwin_common/include')`
followed by the umbrella-header writes.  Returns the event trace, the final
registry, and whether the run completed. -/
def generate_source_and_headers (env : BuildEnv)
    (generate_osx generate_ios generate_tvos : Bool) :
    List Event × Registry × Bool :=
  let st := stagePhase generate_osx generate_ios generate_tvos
  let res := buildPhase env (enabledPlatforms generate_osx generate_ios generate_tvos) []
  if res.2.2 then
    (st ++ res.1 ++ (Event.mkdirDir "darwin_common/include" :: umbrellaEvents res.2.1),
     res.2.1, true)
  else (st ++ res.1, res.2.1, false)

/-- `__main__`: parse the three `--disable-*` switches and call
`generate_source_and_headers(generate_osx=not args.disable_osx,
generate_ios=not args.disable_ios, generate_tvos=False)` -- the tvOS flag is
parsed but never forwarded. -/
def mainRun (env : BuildEnv) (disable_ios disable_tvos disable_osx : Bool) :
    List Event × Registry × Bool :=
  generate_source_and_headers env (!disable_osx) (!disable_ios) false

/-- Which platform, if any, an event concerns. -/
def eventPlat : Event → Option Platform
  | Event.stagePlatform p => some p
  | Event.mkBuildDir p => some p
  | Event.runConfigure p => some p
  | Event.stageBuildHeaders p => some p
  | _ => none

/-- No event of the trace concerns platform `p`: it is neither staged nor
built in any way. -/
def noEventsFor (p : Platform) (tr : List Event) : Prop :=
  ∀ e ∈ tr, eventPlat e ≠ some p

/-! ## Staging lemmas -/

lemma wrapContent_eq (pre c suf : String) : wrapContent pre c suf = pre ++ c ++ suf := by
  unfold wrapContent
  by_cases hp : pre = "" <;> by_cases hs : suf = "" <;> simp [hp, hs]

lemma fsRead_fsWrite_self (fs : Fs) (p c : String) :
    fsRead (fsWrite fs p c) p = some c := by
  induction fs with
  | nil => simp [fsWrite, fsRead]
  | cons e rest ih =>
    obtain ⟨q, d⟩ := e
    by_cases h : q = p
    · simp [fsWrite, fsRead, h]
    · simp [fsWrite, fsRead, h, ih]

lemma fsRead_fsWrite_ne (fs : Fs) (p c q : String) (h : q ≠ p) :
    fsRead (fsWrite fs p c) q = fsRead fs q := by
  have hpq : ¬ p = q := fun hc => h hc.symm
  induction fs with
  | nil => simp [fsWrite, fsRead, hpq]
  | cons e rest ih =>
    obtain ⟨m, d⟩ := e
    by_cases hm : m = p
    · subst hm
      simp [fsWrite, fsRead, hpq]
    · by_cases hq : m = q
      · subst hq
        simp [fsWrite, fsRead, hm]
      · simp [fsWrite, fsRead, hm, hq, ih]

lemma copyFilesGo_frame (src_dir dst_dir : String) (fsfx : Option String)
    (pre suf : String) :
    ∀ (L : List String) (fs fs' : Fs),
      copyFilesGo src_dir dst_dir fsfx pre suf fs L = Except.ok fs' →
      ∀ q, (∀ f ∈ L, q ≠ joinPath dst_dir (outFilename f fsfx)) →
        fsRead fs' q = fsRead fs q := by
  intro L
  induction L with
  | nil =>
    intro fs fs' h q _
    simp only [copyFilesGo] at h
    cases h
    rfl
  | cons n rest ih =>
    intro fs fs' h q hq
    simp only [copyFilesGo, move_file] at h
    cases hrd : fsRead fs (joinPath src_dir n) with
    | none => rw [hrd] at h; cases h
    | some c =>
      rw [hrd] at h
      have hq' : ∀ f ∈ rest, q ≠ joinPath dst_dir (outFilename f fsfx) :=
        fun f hf => hq f (List.mem_cons_of_mem _ hf)
      rw [ih _ _ h q hq']
      exact fsRead_fsWrite_ne _ _ _ _ (hq n (List.mem_cons_self _ _))

lemma copyFilesGo_ok_reads (src_dir dst_dir : String) (fsfx : Option String)
    (pre suf : String) :
    ∀ (L : List String) (fs fs' : Fs),
      (∀ f ∈ L, ∀ g ∈ L,
        joinPath dst_dir (outFilename f fsfx) ≠ joinPath src_dir g) →
      (∀ f ∈ L, ∀ g ∈ L, f ≠ g →
        joinPath dst_dir (outFilename f fsfx) ≠ joinPath dst_dir (outFilename g fsfx)) →
      copyFilesGo src_dir dst_dir fsfx pre suf fs L = Except.ok fs' →
      ∀ h ∈ L, ∃ c, fsRead fs (joinPath src_dir h) = some c ∧
        fsRead fs' (joinPath dst_dir (outFilename h fsfx)) =
          some (wrapContent pre c suf) := by
  intro L
  induction L with
  | nil => intro fs fs' _ _ _ h hm; simp at hm
  | cons n rest ih =>
    intro fs fs' hsep hpaths hok h hm
    simp only [copyFilesGo, move_file] at hok
    cases hrd : fsRead fs (joinPath src_dir n) with
    | none => rw [hrd] at hok; cases hok
    | some c =>
      rw [hrd] at hok
      have hsep' : ∀ f ∈ rest, ∀ g ∈ rest,
          joinPath dst_dir (outFilename f fsfx) ≠ joinPath src_dir g :=
        fun f hf g hg =>
          hsep f (List.mem_cons_of_mem _ hf) g (List.mem_cons_of_mem _ hg)
      have hpaths' : ∀ f ∈ rest, ∀ g ∈ rest, f ≠ g →
          joinPath dst_dir (outFilename f fsfx) ≠ joinPath dst_dir (outFilename g fsfx) :=
        fun f hf g hg =>
          hpaths f (List.mem_cons_of_mem _ hf) g (List.mem_cons_of_mem _ hg)
      rcases List.mem_cons.mp hm with rfl | hmrest
      · refine ⟨c, hrd, ?_⟩
        by_cases hnr : h ∈ rest
        · obtain ⟨c', hrd', hfin⟩ := ih _ _ hsep' hpaths' hok h hnr
          have hpr : fsRead (fsWrite fs
                (joinPath dst_dir (outFilename h fsfx)) (wrapContent pre c suf))
                (joinPath src_dir h) = fsRead fs (joinPath src_dir h) :=
            fsRead_fsWrite_ne _ _ _ _
              (Ne.symm (hsep h (List.mem_cons_self _ _) h (List.mem_cons_self _ _)))
          rw [hpr, hrd] at hrd'
          cases hrd'
          exact hfin
        · have hfr := copyFilesGo_frame src_dir dst_dir fsfx pre suf rest _ _ hok
            (joinPath dst_dir (outFilename h fsfx))
            (fun f hf =>
              hpaths h (List.mem_cons_self _ _) f (List.mem_cons_of_mem _ hf)
                (fun hc => hnr (hc ▸ hf)))
          rw [hfr]
          exact fsRead_fsWrite_self _ _ _
      · obtain ⟨c', hrd', hfin⟩ := ih _ _ hsep' hpaths' hok h hmrest
        have hpr : fsRead (fsWrite fs
              (joinPath dst_dir (outFilename n fsfx)) (wrapContent pre c suf))
              (joinPath src_dir h) = fsRead fs (joinPath src_dir h) :=
          fsRead_fsWrite_ne _ _ _ _
            (Ne.symm (hsep n (List.mem_cons_self _ _) h (List.mem_cons_of_mem _ hmrest)))
        rw [hpr] at hrd'
        exact ⟨c', hrd', hfin⟩

/-- C1: for every platform descriptor with a non-empty `hdr_files` list, if
the source-staging phase (`copy_src_platform_files`) succeeds, the staging
destination directory contains one file per listed header, whose content is
exactly `guard_prefix ++ original_contents ++ guard_suffix`, byte for byte.
The separation hypotheses say that staging writes do not land on the source
paths being read and that distinct headers land at distinct paths; both hold
for the concrete descriptor table. -/
theorem C1_platform_header_staging (p : Platform) (fs fs' : Fs)
    (hne : p.hdr_files ≠ [])
    (hcross : ∀ f ∈ list_files_names p.src_files, ∀ h ∈ list_files_names p.hdr_files,
      joinPath (platDstDir p) (outFilename f (some p.arch)) ≠ joinPath (platSrcDir p) h)
    (hsep : ∀ f ∈ list_files_names p.hdr_files, ∀ g ∈ list_files_names p.hdr_files,
      joinPath (platDstDir p) (outFilename f none) ≠ joinPath (platSrcDir p) g)
    (hpaths : ∀ f ∈ list_files_names p.hdr_files, ∀ g ∈ list_files_names p.hdr_files,
      f ≠ g →
      joinPath (platDstDir p) (outFilename f none) ≠
        joinPath (platDstDir p) (outFilename g none))
    (hok : copy_src_platform_files fs p = Except.ok fs') :
    ∀ h ∈ list_files_names p.hdr_files, ∃ c,
      fsRead fs (joinPath (platSrcDir p) h) = some c ∧
      fsRead fs' (joinPath (platDstDir p) h) = some (p.pfx ++ c ++ p.sfx) := by
  cases h1 : copy_files fs (platSrcDir p) (platDstDir p) p.src_files
      (some p.arch) p.pfx p.sfx with
  | error e =>
    rw [copy_src_platform_files, h1] at hok
    cases hok
  | ok fs1 =>
    rw [copy_src_platform_files, h1] at hok
    intro h hm
    obtain ⟨c, hc1, hcf⟩ :=
      copyFilesGo_ok_reads (platSrcDir p) (platDstDir p) none p.pfx p.sfx
        (list_files_names p.hdr_files) fs1 fs' hsep hpaths hok h hm
    have hfr := copyFilesGo_frame (platSrcDir p) (platDstDir p) (some p.arch)
      p.pfx p.sfx (list_files_names p.src_files) fs fs1 h1
      (joinPath (platSrcDir p) h)
      (fun f hf => Ne.symm (hcross f hf h hm))
    rw [hfr] at hc1
    refine ⟨c, hc1, ?_⟩
    have houtn : outFilename h none = h := rfl
    rw [houtn] at hcf
    rw [hcf, wrapContent_eq]

def fsC1start : Fs :=
  [("src/arm/sysv.S", "A"), ("src/arm/ffi.c", "B"), ("src/arm/internal.h", "C")]

def fsC1end : Fs :=
  [("src/arm/sysv.S", "A"), ("src/arm/ffi.c", "B"), ("src/arm/internal.h", "C"),
   ("darwin_ios/src/arm/sysv_armv7.S", "#ifdef __arm__\n\nA\n\n#endif"),
   ("darwin_ios/src/arm/ffi_armv7.c", "#ifdef __arm__\n\nB\n\n#endif"),
   ("darwin_ios/src/arm/internal.h", "#ifdef __arm__\n\nC\n\n#endif")]

/-- C1 witness: the iOS 32-bit-device descriptor staged over a concrete
filesystem. -/
theorem C1_platform_header_staging_witness :
    ∃ c, fsRead fsC1start (joinPath (platSrcDir ios_device_platform) "internal.h") =
        some c ∧
      fsRead fsC1end (joinPath (platDstDir ios_device_platform) "internal.h") =
        some (ios_device_platform.pfx ++ c ++ ios_device_platform.sfx) :=
  C1_platform_header_staging ios_device_platform fsC1start fsC1end (by decide)
    (by decide) (by decide) (by decide) (by decide) "internal.h" (by decide)

/-! ## Registry lemmas -/

/-- The new value of a registry entry after `.add(t)`: used to state the
lookup characterisation of `regAdd`. -/
def addTriple (t : Triple) : Option (List Triple) → List Triple
  | some l => if t ∈ l then l else l ++ [t]
  | none => [t]

lemma mem_addTriple (t : Triple) (o : Option (List Triple)) : t ∈ addTriple t o := by
  cases o with
  | none => simp [addTriple]
  | some l => by_cases h : t ∈ l <;> simp [addTriple, h]

lemma addTriple_mem_of_mem (s : Triple) (l : List Triple) (t : Triple) (h : t ∈ l) :
    t ∈ addTriple s (some l) := by
  by_cases hs : s ∈ l <;> simp [addTriple, hs, h]

lemma addTriple_cases (s : Triple) (o : Option (List Triple)) (t : Triple)
    (h : t ∈ addTriple s o) : (∃ l, o = some l ∧ t ∈ l) ∨ t = s := by
  cases o with
  | none =>
    simp [addTriple] at h
    exact Or.inr h
  | some l =>
    by_cases hs : s ∈ l
    · simp [addTriple, hs] at h
      exact Or.inl ⟨l, rfl, h⟩
    · simp [addTriple, hs] at h
      rcases h with h | h
      · exact Or.inl ⟨l, rfl, h⟩
      · exact Or.inr h

lemma regLookup_regAdd (R : Registry) (n : String) (t : Triple) (m : String) :
    regLookup (regAdd R n t) m =
      if n = m then some (addTriple t (regLookup R n))
      else regLookup R m := by
  induction R with
  | nil =>
    by_cases hm : n = m <;> simp [regAdd, regLookup, addTriple, hm]
  | cons e rest ih =>
    obtain ⟨k, l⟩ := e
    by_cases hk : k = n
    · subst hk
      by_cases hm : k = m <;> simp [regAdd, regLookup, addTriple, hm]
    · by_cases hm : k = m
      · subst hm
        have hnm : ¬ n = k := fun hc => hk hc.symm
        simp [regAdd, regLookup, hk, hnm]
      · simp [regAdd, regLookup, hk, hm, ih]

lemma present_regAdd_self (R : Registry) (n : String) (t : Triple) :
    present (regAdd R n t) n t :=
  ⟨addTriple t (regLookup R n), by rw [regLookup_regAdd]; simp,
   mem_addTriple t _⟩

lemma present_regAdd_mono (R : Registry) (n : String) (t : Triple) (m : String)
    (s : Triple) (h : present R n t) : present (regAdd R m s) n t := by
  obtain ⟨l, hl, ht⟩ := h
  unfold present
  rw [regLookup_regAdd]
  by_cases hm : m = n
  · subst hm
    rw [if_pos rfl, hl]
    exact ⟨addTriple s (some l), rfl, addTriple_mem_of_mem s l t ht⟩
  · rw [if_neg hm]
    exact ⟨l, hl, ht⟩

lemma regAdd_of_present (R : Registry) (n : String) (t : Triple)
    (h : present R n t) : regAdd R n t = R := by
  induction R with
  | nil => obtain ⟨l, hl, _⟩ := h; simp [regLookup] at hl
  | cons e rest ih =>
    obtain ⟨k, l⟩ := e
    obtain ⟨l', hl', ht'⟩ := h
    by_cases hk : k = n
    · subst hk
      simp [regLookup] at hl'
      subst hl'
      simp [regAdd, ht']
    · simp only [regLookup, if_neg hk] at hl'
      simp [regAdd, hk, ih ⟨l', hl', ht'⟩]

lemma present_regAddList_mono (t' : Triple) :
    ∀ (L : List String) (R : Registry) (n : String) (t : Triple),
      present R n t → present (regAddList t' R L) n t := by
  intro L
  induction L with
  | nil => intro R n t h; exact h
  | cons m ms ih =>
    intro R n t h
    exact ih _ _ _ (present_regAdd_mono R n t m t' h)

lemma present_regAddList_self (t' : Triple) :
    ∀ (L : List String) (R : Registry) (n : String), n ∈ L →
      present (regAddList t' R L) n t' := by
  intro L
  induction L with
  | nil => intro R n h; simp at h
  | cons m ms ih =>
    intro R n h
    rcases List.mem_cons.mp h with rfl | hm
    · exact present_regAddList_mono t' ms _ n t' (present_regAdd_self R n t')
    · exact ih _ _ hm

lemma regAddList_of_all_present (t' : Triple) :
    ∀ (L : List String) (R : Registry), (∀ n ∈ L, present R n t') →
      regAddList t' R L = R := by
  intro L
  induction L with
  | nil => intro R _; rfl
  | cons m ms ih =>
    intro R h
    have hm := regAdd_of_present R m t' (h m (List.mem_cons_self _ _))
    show regAddList t' (regAdd R m t') ms = R
    rw [hm]
    exact ih R (fun n hn => h n (List.mem_cons_of_mem _ hn))

lemma regAddList_idem (t' : Triple) (L : List String) (R : Registry) :
    regAddList t' (regAddList t' R L) L = regAddList t' R L :=
  regAddList_of_all_present t' L _
    (fun n hn => present_regAddList_self t' L R n hn)

lemma buildPhase_present_mono (env : BuildEnv) :
    ∀ (l : List Platform) (R : Registry) (n : String) (t : Triple),
      present R n t → present ((buildPhase env l R).2.1) n t := by
  intro l
  induction l with
  | nil => intro R n t h; exact h
  | cons q qs ih =>
    intro R n t h
    by_cases hq : env.configureOk q
    · simp only [buildPhase, hq, if_pos]
      exact ih _ _ _ (present_regAddList_mono (tripleOf q) _ _ _ _ h)
    · simp only [buildPhase, hq]
      simpa using h

/-- C8: the header registry has additive set semantics: running the build
loop for the same platform twice leaves the registry exactly as running it
once (duplicate `(guard prefix, architecture, guard suffix)` triples
collapse), and no build ever removes a recorded entry. -/
theorem C8_registry_set_semantics (env : BuildEnv) (p : Platform) (R : Registry) :
    (buildPhase env [p, p] R).2.1 = (buildPhase env [p] R).2.1 ∧
    (∀ (l : List Platform) (n : String) (t : Triple),
      present R n t → present ((buildPhase env l R).2.1) n t) := by
  constructor
  · by_cases hp : env.configureOk p
    · simp only [buildPhase, hp, if_pos, regAddPlatform]
      exact regAddList_idem (tripleOf p) (env.foundHeaders p) R
    · simp [buildPhase, hp]
  · exact fun l n t h => buildPhase_present_mono env l R n t h

def envC8 : BuildEnv :=
  { configureOk := fun _ => true, foundHeaders := fun _ => ["ffi.h", "ffitarget.h"] }

def regC8 : Registry := [("ffi.h", [("#ifdef __arm64__\n\n", "arm64", "\n\n#endif")])]

/-- C8 witness: concrete registry, double build of the amd64 desktop target. -/
theorem C8_registry_set_semantics_witness :
    (buildPhase envC8 [desktop_amd64_platform, desktop_amd64_platform] regC8).2.1 =
      (buildPhase envC8 [desktop_amd64_platform] regC8).2.1 ∧
    present ((buildPhase envC8 [ios_device_platform] regC8).2.1) "ffi.h"
      ("#ifdef __arm64__\n\n", "arm64", "\n\n#endif") :=
  ⟨(C8_registry_set_semantics envC8 desktop_amd64_platform regC8).1,
   (C8_registry_set_semantics envC8 desktop_amd64_platform regC8).2
     [ios_device_platform] "ffi.h" ("#ifdef __arm64__\n\n", "arm64", "\n\n#endif")
     ⟨[("#ifdef __arm64__\n\n", "arm64", "\n\n#endif")], by decide, by decide⟩⟩

/-! ## C9: idempotent directory creation -/

/-- C9: `mkdir_p` is idempotent and abort-on-other-errors: creating an
existing directory succeeds with the state unchanged; any successful call
preserves every pre-existing file and directory; an `os.makedirs` error other
than `EEXIST` is re-raised unchanged. -/
theorem C9_mkdir_p_idempotent (fail : Option OsErr) (st : DirFs) (path : String) :
    (path ∈ st.dirs → mkdir_p fail st path = Except.ok st) ∧
    (∀ st1, mkdir_p fail st path = Except.ok st1 →
      st1.files = st.files ∧ ∀ d ∈ st.dirs, d ∈ st1.dirs) ∧
    (∀ e, e ≠ OsErr.eexist → makedirs fail st path = Except.error e →
      mkdir_p fail st path = Except.error e) := by
  refine ⟨?_, ?_, ?_⟩
  · intro hmem
    simp [mkdir_p, makedirs, hmem]
  · intro st1 h
    by_cases hmem : path ∈ st.dirs
    · simp [mkdir_p, makedirs, hmem] at h
      subst h
      exact ⟨rfl, fun d hd => hd⟩
    · cases hf : fail with
      | some e =>
        simp only [mkdir_p, makedirs, if_neg hmem, hf] at h
        by_cases he : e = OsErr.eexist
        · rw [if_pos he, Except.ok.injEq] at h
          subst h
          exact ⟨rfl, fun d hd => hd⟩
        · rw [if_neg he] at h
          cases h
      | none =>
        simp only [mkdir_p, makedirs, if_neg hmem, hf, Except.ok.injEq] at h
        subst h
        exact ⟨rfl, fun d hd => List.mem_cons_of_mem _ hd⟩
  · intro e he hmk
    simp [mkdir_p, hmk, he]

def dirC9 : DirFs :=
  { dirs := ["darwin_ios"], files := [("darwin_ios/include/ffi_arm64.h", "X")] }

/-- C9 witness: creating an already-existing destination directory succeeds
and leaves the directory state (files included) untouched. -/
theorem C9_mkdir_p_idempotent_witness :
    mkdir_p none dirC9 "darwin_ios" = Except.ok dirC9 :=
  (C9_mkdir_p_idempotent none dirC9 "darwin_ios").1 (by decide)

/-! ## C7: working directory restored by build_target -/

/-- C7: `build_target` restores the process working directory on every exit
path: after the call the current directory equals the one before it, both
when `configure` succeeds and when it raises, and in the latter case the
failure is propagated unchanged. -/
theorem C7_cwd_restored (configureRun : String → Except CfgErr Unit)
    (p : Platform) (s : CwdState) :
    ((build_target_chdir configureRun p s).2.cwd = s.cwd) ∧
    (∀ e, configureRun (joinPath s.cwd (build_dir_name p)) = Except.error e →
      (build_target_chdir configureRun p s).1 = Except.error e ∧
      (build_target_chdir configureRun p s).2.cwd = s.cwd) := by
  refine ⟨rfl, ?_⟩
  intro e he
  exact ⟨he, rfl⟩

/-- C7 witness: a failing `configure` run from a concrete directory. -/
theorem C7_cwd_restored_witness :
    (build_target_chdir (fun _ => Except.error (CfgErr.nonzeroExit 1))
        desktop_amd64_platform { cwd := "/work" }).1 =
      Except.error (CfgErr.nonzeroExit 1) ∧
    (build_target_chdir (fun _ => Except.error (CfgErr.nonzeroExit 1))
        desktop_amd64_platform { cwd := "/work" }).2.cwd = "/work" :=
  (C7_cwd_restored (fun _ => Except.error (CfgErr.nonzeroExit 1))
      desktop_amd64_platform { cwd := "/work" }).2 (CfgErr.nonzeroExit 1) rfl

/-! ## C2: umbrella header contents -/

lemma strContains_append_left (a b needle : String) (h : strContains b needle) :
    strContains (a ++ b) needle := by
  obtain ⟨s, t, hst⟩ := h
  exact ⟨a.data ++ s, t, by rw [String.data_append, ← hst]; simp⟩

lemma strContains_head (block rest : String) : strContains (block ++ rest) block :=
  ⟨[], rest.data, by rw [String.data_append]; simp⟩

/-- Generic x86_64 descriptor of the end-to-end scenario: guard
`#ifdef __x86_64__` / `#endif`, producing the header `foo.h`. -/
def scenario_amd64_desc : Platform :=
  { directory := "darwin_scenario", sdk := "sdk", arch := "x86_64", triple := "t",
    version_min := "v", pfx := "#ifdef __x86_64__\n", sfx := "#endif",
    src_dir := "x86", src_files := [], hdr_files := [] }

/-- Generic arm64 descriptor of the end-to-end scenario. -/
def scenario_arm64_desc : Platform :=
  { directory := "darwin_scenario", sdk := "sdk", arch := "arm64", triple := "t",
    version_min := "v", pfx := "#ifdef __arm64__\n", sfx := "#endif",
    src_dir := "aarch64", src_files := [], hdr_files := [] }

/-- Registry state after both scenario descriptors produced `foo.h`. -/
def scenarioRegistry : Registry :=
  regAddPlatform (regAddPlatform [] scenario_amd64_desc ["foo.h"])
    scenario_arm64_desc ["foo.h"]

/-- C2: every triple recorded for a header filename contributes its guarded
include block -- guard prefix, then `#include <stem_arch ext>`, then guard
suffix -- to the umbrella file written for that filename; and in the
two-descriptor scenario (x86_64 and arm64 both producing `foo.h`) the single
emitted `foo.h` contains both guarded blocks, referencing `foo_x86_64.h` and
`foo_arm64.h`. -/
theorem C2_umbrella_blocks :
    (∀ (name : String) (ts : List Triple) (t : Triple), t ∈ ts →
      strContains (umbrellaContent name ts)
        (umbrellaBlock (splitext name).1 (splitext name).2 t)) ∧
    (umbrellaEvents scenarioRegistry =
      [Event.writeUmbrella "foo.h"
        ("#ifdef __x86_64__\n#include <foo_x86_64.h>\n#endif\n" ++
         "#ifdef __arm64__\n#include <foo_arm64.h>\n#endif\n")] ∧
     strContains (umbrellaContent "foo.h"
         [tripleOf scenario_amd64_desc, tripleOf scenario_arm64_desc])
       "#ifdef __x86_64__\n#include <foo_x86_64.h>\n#endif\n" ∧
     strContains (umbrellaContent "foo.h"
         [tripleOf scenario_amd64_desc, tripleOf scenario_arm64_desc])
       "#ifdef __arm64__\n#include <foo_arm64.h>\n#endif\n") := by
  refine ⟨?_, by decide, by decide, by decide⟩
  intro name ts t ht
  induction ts with
  | nil => cases ht
  | cons u rest ih =>
    rcases List.mem_cons.mp ht with rfl | hrest
    · exact strContains_head _ _
    · exact strContains_append_left _ _ _ (ih hrest)

/-- C2 witness: the block-containment statement applied to the scenario
registry entry. -/
theorem C2_umbrella_blocks_witness :
    strContains
      (umbrellaContent "foo.h" [tripleOf scenario_amd64_desc, tripleOf scenario_arm64_desc])
      (umbrellaBlock (splitext "foo.h").1 (splitext "foo.h").2
        (tripleOf scenario_arm64_desc)) :=
  C2_umbrella_blocks.1 "foo.h"
    [tripleOf scenario_amd64_desc, tripleOf scenario_arm64_desc]
    (tripleOf scenario_arm64_desc) (by decide)

/-! ## C3: architecture-suffix renaming -/

/-- C3 counterexample: the common-staging phase
(`copy_files('src', 'darwin_common/src', pattern='*.c')`, which calls
`move_file` with no `file_suffix`) stages `closures.c` -- a file that is not
one of the three allow-listed headers -- at its original, unsuffixed name,
so it is not true that every staged file outside the allow-list gets an
architecture suffix. -/
theorem C3_unsuffixed_common_staging_counterexample :
    move_file [("src/closures.c", "X")] "src" "darwin_common/src" "closures.c"
        none "" "" =
      Except.ok [("src/closures.c", "X"), ("darwin_common/src/closures.c", "X")] ∧
    "closures.c" ∉ allowedHeaders ∧
    outFilename "closures.c" none = "closures.c" := by
  decide

/-- C3 (amended): architecture-suffix renaming applies exactly to files
staged with a (non-empty) requested file suffix that are not allow-listed;
allow-listed headers and files staged with no suffix keep their original
names -- so allow-listed headers staged by several architectures land at one
shared path, where the last writer wins. -/
theorem C3_suffix_renaming_amended (fn a : String) :
    (outFilename fn none = fn) ∧
    (fn ∈ allowedHeaders → outFilename fn (some a) = fn) ∧
    (a ≠ "" → fn ∉ allowedHeaders →
      outFilename fn (some a) = (splitext fn).1 ++ "_" ++ a ++ (splitext fn).2) ∧
    (∀ (fs : Fs) (srcD1 srcD2 dstD pre1 suf1 pre2 suf2 : String)
        (a1 a2 : String) (fs1 fs2 : Fs), fn ∈ allowedHeaders →
      move_file fs srcD1 dstD fn (some a1) pre1 suf1 = Except.ok fs1 →
      move_file fs1 srcD2 dstD fn (some a2) pre2 suf2 = Except.ok fs2 →
      ∃ c, fsRead fs1 (joinPath srcD2 fn) = some c ∧
        fsRead fs2 (joinPath dstD fn) = some (pre2 ++ c ++ suf2)) := by
  refine ⟨rfl, ?_, ?_, ?_⟩
  · intro hmem
    by_cases ha : a = "" <;> simp [outFilename, ha, hmem]
  · intro ha hmem
    simp [outFilename, ha, hmem]
  · intro fs srcD1 srcD2 dstD pre1 suf1 pre2 suf2 a1 a2 fs1 fs2 hmem h1 h2
    have hout2 : outFilename fn (some a2) = fn := by
      by_cases ha : a2 = "" <;> simp [outFilename, ha, hmem]
    simp only [move_file, hout2] at h2
    cases hrd : fsRead fs1 (joinPath srcD2 fn) with
    | none => rw [hrd] at h2; cases h2
    | some c =>
      rw [hrd] at h2
      simp only [Except.ok.injEq] at h2
      subst h2
      exact ⟨c, rfl, by rw [fsRead_fsWrite_self, wrapContent_eq]⟩

/-- C3 amended witness: `internal.h` staged with two different architecture
suffixes lands twice at the same unsuffixed path; the second write wins. -/
theorem C3_suffix_renaming_amended_witness :
    outFilename "internal.h" none = "internal.h" ∧
    outFilename "internal.h" (some "x86_64") = "internal.h" ∧
    outFilename "sysv.S" (some "arm64") = "sysv_arm64.S" ∧
    (∃ c, fsRead [("src/x86/internal.h", "I"),
            ("darwin_ios/src/x86/internal.h", "#ifdef __i386__\n\nI\n\n#endif")]
          (joinPath "src/x86" "internal.h") = some c ∧
      fsRead [("src/x86/internal.h", "I"),
            ("darwin_ios/src/x86/internal.h", "#ifdef __x86_64__\n\nI\n\n#endif")]
          (joinPath "darwin_ios/src/x86" "internal.h") =
        some ("#ifdef __x86_64__\n\n" ++ c ++ "\n\n#endif")) :=
  ⟨(C3_suffix_renaming_amended "internal.h" "x86_64").1,
   (C3_suffix_renaming_amended "internal.h" "x86_64").2.1 (by decide),
   (C3_suffix_renaming_amended "sysv.S" "arm64").2.2.1 (by decide) (by decide),
   (C3_suffix_renaming_amended "internal.h" "x86_64").2.2.2
     [("src/x86/internal.h", "I")] "src/x86" "src/x86" "darwin_ios/src/x86"
     "#ifdef __i386__\n\n" "\n\n#endif" "#ifdef __x86_64__\n\n" "\n\n#endif"
     "i386" "x86_64"
     [("src/x86/internal.h", "I"),
      ("darwin_ios/src/x86/internal.h", "#ifdef __i386__\n\nI\n\n#endif")]
     [("src/x86/internal.h", "I"),
      ("darwin_ios/src/x86/internal.h", "#ifdef __x86_64__\n\nI\n\n#endif")]
     (by decide) (by decide) (by decide)⟩

/-! ## Trace lemmas -/

lemma stageEventsOf_shape :
    ∀ (l : List Platform) (e : Event), e ∈ stageEventsOf l →
      ∃ q ∈ l, e = Event.stagePlatform q := by
  intro l
  induction l with
  | nil => intro e he; simp [stageEventsOf] at he
  | cons q qs ih =>
    intro e he
    rcases List.mem_cons.mp he with rfl | hrest
    · exact ⟨q, List.mem_cons_self _ _, rfl⟩
    · obtain ⟨q', hq', he'⟩ := ih e hrest
      exact ⟨q', List.mem_cons_of_mem _ hq', he'⟩

lemma stageEventsOf_mem (p : Platform) :
    ∀ (l : List Platform), p ∈ l → Event.stagePlatform p ∈ stageEventsOf l := by
  intro l
  induction l with
  | nil => intro h; simp at h
  | cons q qs ih =>
    intro h
    rcases List.mem_cons.mp h with rfl | hrest
    · exact List.mem_cons_self _ _
    · exact List.mem_cons_of_mem _ (ih hrest)

lemma stagePhase_shape (o i t : Bool) (e : Event) (he : e ∈ stagePhase o i t) :
    (∃ a b c, e = Event.stageCommon a b c) ∨
    ∃ q ∈ enabledPlatforms o i t, e = Event.stagePlatform q := by
  rcases List.mem_cons.mp he with rfl | he1
  · exact Or.inl ⟨_, _, _, rfl⟩
  · rcases List.mem_cons.mp he1 with rfl | he2
    · exact Or.inl ⟨_, _, _, rfl⟩
    · exact Or.inr (stageEventsOf_shape _ e he2)

def okBuildEvents : List Platform → List Event
  | [] => []
  | q :: qs =>
    Event.mkBuildDir q :: Event.runConfigure q :: Event.stageBuildHeaders q ::
      okBuildEvents qs

lemma okBuildEvents_shape :
    ∀ (l : List Platform) (e : Event), e ∈ okBuildEvents l →
      ∃ q ∈ l, e = Event.mkBuildDir q ∨ e = Event.runConfigure q ∨
        e = Event.stageBuildHeaders q := by
  intro l
  induction l with
  | nil => intro e he; simp [okBuildEvents] at he
  | cons q qs ih =>
    intro e he
    rcases List.mem_cons.mp he with rfl | he1
    · exact ⟨q, List.mem_cons_self _ _, Or.inl rfl⟩
    · rcases List.mem_cons.mp he1 with rfl | he2
      · exact ⟨q, List.mem_cons_self _ _, Or.inr (Or.inl rfl)⟩
      · rcases List.mem_cons.mp he2 with rfl | he3
        · exact ⟨q, List.mem_cons_self _ _, Or.inr (Or.inr rfl)⟩
        · obtain ⟨q', hq', he'⟩ := ih e he3
          exact ⟨q', List.mem_cons_of_mem _ hq', he'⟩

lemma buildPhase_first_fail (env : BuildEnv) :
    ∀ (l1 : List Platform) (p : Platform) (l2 : List Platform) (R : Registry),
      (∀ q ∈ l1, env.configureOk q = true) → env.configureOk p = false →
      ∃ R', buildPhase env (l1 ++ p :: l2) R =
        (okBuildEvents l1 ++ [Event.mkBuildDir p, Event.runConfigure p], R', false) := by
  intro l1
  induction l1 with
  | nil =>
    intro p l2 R _ hfail
    exact ⟨R, by simp [buildPhase, hfail, okBuildEvents]⟩
  | cons q qs ih =>
    intro p l2 R hok hfail
    have hq : env.configureOk q = true := hok q (List.mem_cons_self _ _)
    obtain ⟨R', hR'⟩ := ih p l2 (regAddPlatform R q (env.foundHeaders q))
      (fun x hx => hok x (List.mem_cons_of_mem _ hx)) hfail
    refine ⟨R', ?_⟩
    rw [List.cons_append]
    simp only [buildPhase, hq, if_pos]
    rw [hR']
    simp [okBuildEvents]

lemma buildPhase_eventPlat (env : BuildEnv) :
    ∀ (l : List Platform) (R : Registry) (e : Event), e ∈ (buildPhase env l R).1 →
      ∀ p, eventPlat e = some p → p ∈ l := by
  intro l
  induction l with
  | nil => intro R e he; simp [buildPhase] at he
  | cons q qs ih =>
    intro R e he p hp
    by_cases hq : env.configureOk q
    · simp only [buildPhase, hq, if_pos] at he
      rcases List.mem_cons.mp he with rfl | he1
      · simp [eventPlat] at hp; exact hp ▸ List.mem_cons_self _ _
      · rcases List.mem_cons.mp he1 with rfl | he2
        · simp [eventPlat] at hp; exact hp ▸ List.mem_cons_self _ _
        · rcases List.mem_cons.mp he2 with rfl | he3
          · simp [eventPlat] at hp; exact hp ▸ List.mem_cons_self _ _
          · exact List.mem_cons_of_mem _ (ih _ e he3 p hp)
    · simp only [buildPhase, hq] at he
      simp only [Bool.false_eq_true, if_false] at he
      rcases List.mem_cons.mp he with rfl | he1
      · simp [eventPlat] at hp; exact hp ▸ List.mem_cons_self _ _
      · rcases List.mem_cons.mp he1 with rfl | he2
        · simp [eventPlat] at hp; exact hp ▸ List.mem_cons_self _ _
        · simp at he2

lemma umbrellaEvents_eventPlat :
    ∀ (R : Registry) (e : Event), e ∈ umbrellaEvents R → eventPlat e = none := by
  intro R
  induction R with
  | nil => intro e he; simp [umbrellaEvents] at he
  | cons x rest ih =>
    obtain ⟨n, ts⟩ := x
    intro e he
    rcases List.mem_cons.mp he with rfl | hrest
    · rfl
    · exact ih e hrest

lemma generate_eq_of_fail (env : BuildEnv) (o i t : Bool)
    (hff : (buildPhase env (enabledPlatforms o i t) []).2.2 = false) :
    generate_source_and_headers env o i t =
      (stagePhase o i t ++ (buildPhase env (enabledPlatforms o i t) []).1,
       (buildPhase env (enabledPlatforms o i t) []).2.1, false) := by
  unfold generate_source_and_headers
  simp only [hff]
  simp

lemma generate_registry (env : BuildEnv) (o i t : Bool) :
    (generate_source_and_headers env o i t).2.1 =
      (buildPhase env (enabledPlatforms o i t) []).2.1 := by
  unfold generate_source_and_headers
  by_cases h : (buildPhase env (enabledPlatforms o i t) []).2.2 <;> simp [h]

lemma generate_noEventsFor (env : BuildEnv) (o i t : Bool) (p : Platform)
    (hp : p ∉ enabledPlatforms o i t) :
    noEventsFor p (generate_source_and_headers env o i t).1 := by
  intro e he hep
  have hmem : e ∈ stagePhase o i t ∨ e ∈ (buildPhase env (enabledPlatforms o i t) []).1 ∨
      e = Event.mkdirDir "darwin_common/include" ∨
      e ∈ umbrellaEvents (buildPhase env (enabledPlatforms o i t) []).2.1 := by
    unfold generate_source_and_headers at he
    by_cases hok : (buildPhase env (enabledPlatforms o i t) []).2.2
    · rw [if_pos hok] at he
      rcases List.mem_append.mp he with h1 | h2
      · rcases List.mem_append.mp h1 with ha | hb
        · exact Or.inl ha
        · exact Or.inr (Or.inl hb)
      · rcases List.mem_cons.mp h2 with rfl | h3
        · exact Or.inr (Or.inr (Or.inl rfl))
        · exact Or.inr (Or.inr (Or.inr h3))
    · rw [if_neg hok] at he
      rcases List.mem_append.mp he with h1 | h2
      · exact Or.inl h1
      · exact Or.inr (Or.inl h2)
  rcases hmem with h | h | h | h
  · rcases stagePhase_shape o i t e h with ⟨a, b, c, rfl⟩ | ⟨q, hq, rfl⟩
    · simp [eventPlat] at hep
    · simp [eventPlat] at hep
      exact hp (hep ▸ hq)
  · exact hp (buildPhase_eventPlat env _ _ e h p hep)
  · subst h; simp [eventPlat] at hep
  · rw [umbrellaEvents_eventPlat _ e h] at hep; cases hep

lemma stage_mem_generate (env : BuildEnv) (o i t : Bool) (p : Platform)
    (hp : p ∈ enabledPlatforms o i t) :
    Event.stagePlatform p ∈ (generate_source_and_headers env o i t).1 := by
  have hst : Event.stagePlatform p ∈ stagePhase o i t :=
    List.mem_cons_of_mem _ (List.mem_cons_of_mem _ (stageEventsOf_mem p _ hp))
  unfold generate_source_and_headers
  by_cases hok : (buildPhase env (enabledPlatforms o i t) []).2.2
  · rw [if_pos hok]
    exact List.mem_append_left _ (List.mem_append_left _ hst)
  · rw [if_neg hok]
    exact List.mem_append_left _ hst

lemma present_regAdd_cases (R : Registry) (m : String) (t' : Triple)
    (n : String) (t : Triple) (h : present (regAdd R m t') n t) :
    present R n t ∨ t = t' := by
  obtain ⟨l, hl, ht⟩ := h
  rw [regLookup_regAdd] at hl
  by_cases hm : m = n
  · rw [if_pos hm] at hl
    simp only [Option.some.injEq] at hl
    subst hl
    rcases addTriple_cases t' (regLookup R m) t ht with ⟨l0, hl0, hin⟩ | heq
    · exact Or.inl ⟨l0, hm ▸ hl0, hin⟩
    · exact Or.inr heq
  · rw [if_neg hm] at hl
    exact Or.inl ⟨l, hl, ht⟩

lemma present_regAddList_cases (t' : Triple) :
    ∀ (L : List String) (R : Registry) (n : String) (t : Triple),
      present (regAddList t' R L) n t → present R n t ∨ t = t' := by
  intro L
  induction L with
  | nil => intro R n t h; exact Or.inl h
  | cons m ms ih =>
    intro R n t h
    rcases ih _ _ _ h with h1 | h1
    · exact present_regAdd_cases R m t' n t h1
    · exact Or.inr h1

lemma buildPhase_registry_cases (env : BuildEnv) :
    ∀ (l : List Platform) (R : Registry) (n : String) (t : Triple),
      present ((buildPhase env l R).2.1) n t →
      present R n t ∨ ∃ q ∈ l, t = tripleOf q := by
  intro l
  induction l with
  | nil => intro R n t h; exact Or.inl h
  | cons q qs ih =>
    intro R n t h
    by_cases hq : env.configureOk q
    · simp only [buildPhase, hq, if_pos] at h
      rcases ih _ _ _ h with h1 | ⟨q', hq', ht'⟩
      · rcases present_regAddList_cases (tripleOf q) _ _ _ _ h1 with h2 | h2
        · exact Or.inl h2
        · exact Or.inr ⟨q, List.mem_cons_self _ _, h2⟩
      · exact Or.inr ⟨q', List.mem_cons_of_mem _ hq', ht'⟩
    · simp only [buildPhase, hq] at h
      simp only [Bool.false_eq_true, if_false] at h
      exact Or.inl h

lemma enabled_no_ios (o t : Bool) :
    ∀ q ∈ enabledPlatforms o false t, q.directory ≠ "darwin_ios" := by
  cases o <;> cases t <;> decide

lemma enabled_no_tvos (o i : Bool) :
    ∀ q ∈ enabledPlatforms o i false, q.directory ≠ "darwin_tvos" := by
  cases o <;> cases i <;> decide

lemma enabled_no_osx (i t : Bool) :
    ∀ q ∈ enabledPlatforms false i t, q.directory ≠ "darwin_osx" := by
  cases i <;> cases t <;> decide

lemma iosSim_not_enabled (o i t : Bool) :
    ios_simulator_platform ∉ enabledPlatforms o i t := by
  cases o <;> cases i <;> cases t <;> decide

/-! ## C4: configure failure aborts the run -/

/-- C4: when the `configure` invocation of platform `p` exits non-zero (all
earlier enabled platforms having succeeded), the whole run aborts there: the
run is marked failed, no umbrella header is ever written, and no later
enabled platform gets a build directory, a configure run, or header
staging. -/
theorem C4_configure_failure_aborts (env : BuildEnv) (osx ios tvos : Bool)
    (l1 l2 : List Platform) (p : Platform)
    (hsplit : enabledPlatforms osx ios tvos = l1 ++ p :: l2)
    (hok : ∀ q ∈ l1, env.configureOk q = true)
    (hfail : env.configureOk p = false) :
    (generate_source_and_headers env osx ios tvos).2.2 = false ∧
    (∀ n c, Event.writeUmbrella n c ∉ (generate_source_and_headers env osx ios tvos).1) ∧
    (∀ q ∈ l2, q ∉ l1 → q ≠ p →
      Event.mkBuildDir q ∉ (generate_source_and_headers env osx ios tvos).1 ∧
      Event.runConfigure q ∉ (generate_source_and_headers env osx ios tvos).1 ∧
      Event.stageBuildHeaders q ∉ (generate_source_and_headers env osx ios tvos).1) := by
  obtain ⟨R', hbp⟩ := buildPhase_first_fail env l1 p l2 [] hok hfail
  have hff : (buildPhase env (enabledPlatforms osx ios tvos) []).2.2 = false := by
    rw [hsplit, hbp]
  have hgen := generate_eq_of_fail env osx ios tvos hff
  have htr : (generate_source_and_headers env osx ios tvos).1 =
      stagePhase osx ios tvos ++
        (okBuildEvents l1 ++ [Event.mkBuildDir p, Event.runConfigure p]) := by
    rw [hgen]
    rw [hsplit, hbp]
  refine ⟨by rw [hgen], ?_, ?_⟩
  · intro n c hin
    rw [htr] at hin
    rcases List.mem_append.mp hin with h1 | h2
    · rcases stagePhase_shape osx ios tvos _ h1 with ⟨a, b, c2, he⟩ | ⟨q, _, he⟩ <;>
        simp at he
    · rcases List.mem_append.mp h2 with h3 | h4
      · obtain ⟨q, _, he⟩ := okBuildEvents_shape l1 _ h3
        rcases he with he | he | he <;> simp at he
      · rcases List.mem_cons.mp h4 with he | h5
        · simp at he
        · rcases List.mem_cons.mp h5 with he | h6
          · simp at he
          · simp at h6
  · intro q hq2 hq1 hqp
    refine ⟨?_, ?_, ?_⟩ <;>
    · intro hin
      rw [htr] at hin
      rcases List.mem_append.mp hin with h1 | h2
      · rcases stagePhase_shape osx ios tvos _ h1 with ⟨a, b, c2, he⟩ | ⟨q', _, he⟩ <;>
          simp at he
      · rcases List.mem_append.mp h2 with h3 | h4
        · obtain ⟨q', hq', he⟩ := okBuildEvents_shape l1 _ h3
          rcases he with he | he | he <;> simp at he <;> exact hq1 (he ▸ hq')
        · rcases List.mem_cons.mp h4 with he | h5
          · simp at he
            try exact hqp he
          · rcases List.mem_cons.mp h5 with he | h6
            · simp at he
              try exact hqp he
            · simp at h6

/-- Oracle under which every `configure` call fails except that
`ios_device_platform` (armv7) exits non-zero. -/
def envC4 : BuildEnv :=
  { configureOk := fun q => !(decide (q = ios_device_platform)),
    foundHeaders := fun _ => ["ffi.h"] }

/-- C4 witness: with iOS and OS X enabled and the armv7 configure failing,
the run fails, writes no umbrella header, and never builds the later
`desktop_amd64` target. -/
theorem C4_configure_failure_aborts_witness :
    (generate_source_and_headers envC4 true true false).2.2 = false ∧
    Event.writeUmbrella "ffi.h" "x" ∉ (generate_source_and_headers envC4 true true false).1 ∧
    Event.mkBuildDir desktop_amd64_platform ∉
      (generate_source_and_headers envC4 true true false).1 :=
  ⟨(C4_configure_failure_aborts envC4 true true false
      [ios_simulator64_platform] [ios_device64_platform, desktop_amd64_platform,
        desktop_arm64_platform] ios_device_platform (by decide) (by decide) (by decide)).1,
   (C4_configure_failure_aborts envC4 true true false
      [ios_simulator64_platform] [ios_device64_platform, desktop_amd64_platform,
        desktop_arm64_platform] ios_device_platform (by decide) (by decide)
      (by decide)).2.1 "ffi.h" "x",
   ((C4_configure_failure_aborts envC4 true true false
      [ios_simulator64_platform] [ios_device64_platform, desktop_amd64_platform,
        desktop_arm64_platform] ios_device_platform (by decide) (by decide)
      (by decide)).2.2 desktop_amd64_platform (by decide) (by decide) (by decide)).1⟩

/-! ## C5: family flags -/

/-- Environment in which every configure call succeeds and no headers are
found. -/
def env_trivial : BuildEnv :=
  { configureOk := fun _ => true, foundHeaders := fun _ => [] }

/-- C5 counterexample: with no `--disable-*` flag passed at all, the tvOS
family is still not generated -- neither of its two descriptors is staged --
so "absence of the `--disable` flag means the family is generated" is false
for the tvOS flag. -/
theorem C5_flag_gating_counterexample :
    ¬ (Event.stagePlatform tvos_simulator64_platform ∈
         (mainRun env_trivial false false false).1 ∨
       Event.stagePlatform tvos_device64_platform ∈
         (mainRun env_trivial false false false).1) := by
  decide

/-- C5 (amended): for the iOS and OS X families, absence of the `--disable`
flag means the family's descriptors are staged; a family whose `--disable`
flag is passed contributes no event at all (no staging, no build directory,
no configure run, no header staging); the tvOS family contributes no event
regardless of its flag; and every triple in the final registry -- hence
every umbrella-header block -- was contributed by an enabled platform's
build. -/
theorem C5_flag_gating_amended (env : BuildEnv) (dios dtvos dosx : Bool) :
    (dios = false →
      Event.stagePlatform ios_simulator64_platform ∈ (mainRun env dios dtvos dosx).1 ∧
      Event.stagePlatform ios_device_platform ∈ (mainRun env dios dtvos dosx).1 ∧
      Event.stagePlatform ios_device64_platform ∈ (mainRun env dios dtvos dosx).1) ∧
    (dosx = false →
      Event.stagePlatform desktop_amd64_platform ∈ (mainRun env dios dtvos dosx).1 ∧
      Event.stagePlatform desktop_arm64_platform ∈ (mainRun env dios dtvos dosx).1) ∧
    (dios = true → ∀ p : Platform, p.directory = "darwin_ios" →
      noEventsFor p (mainRun env dios dtvos dosx).1) ∧
    (dosx = true → ∀ p : Platform, p.directory = "darwin_osx" →
      noEventsFor p (mainRun env dios dtvos dosx).1) ∧
    (∀ p : Platform, p.directory = "darwin_tvos" →
      noEventsFor p (mainRun env dios dtvos dosx).1) ∧
    (∀ n t, present (mainRun env dios dtvos dosx).2.1 n t →
      ∃ q, q ∈ enabledPlatforms (!dosx) (!dios) false ∧ t = tripleOf q) := by
  refine ⟨?_, ?_, ?_, ?_, ?_, ?_⟩
  · intro h
    subst h
    exact ⟨stage_mem_generate env _ _ _ _ (by cases dosx <;> decide),
      stage_mem_generate env _ _ _ _ (by cases dosx <;> decide),
      stage_mem_generate env _ _ _ _ (by cases dosx <;> decide)⟩
  · intro h
    subst h
    exact ⟨stage_mem_generate env _ _ _ _ (by cases dios <;> decide),
      stage_mem_generate env _ _ _ _ (by cases dios <;> decide)⟩
  · intro h p hdir
    subst h
    exact generate_noEventsFor env _ _ _ p
      (fun hm => enabled_no_ios (!dosx) false p hm hdir)
  · intro h p hdir
    subst h
    exact generate_noEventsFor env _ _ _ p
      (fun hm => enabled_no_osx (!dios) false p hm hdir)
  · intro p hdir
    exact generate_noEventsFor env _ _ _ p
      (fun hm => enabled_no_tvos (!dosx) (!dios) p hm hdir)
  · intro n t h
    rw [mainRun, generate_registry] at h
    rcases buildPhase_registry_cases env _ _ n t h with h1 | ⟨q, hq, ht⟩
    · obtain ⟨l, hl, _⟩ := h1
      simp [regLookup] at hl
    · exact ⟨q, hq, ht⟩

/-- C5 amended witness: with no flags, the iOS device descriptor is staged;
with `--disable-osx`, no event concerns the amd64 desktop descriptor. -/
theorem C5_flag_gating_amended_witness :
    Event.stagePlatform ios_device_platform ∈ (mainRun env_trivial false false false).1 ∧
    noEventsFor desktop_amd64_platform (mainRun env_trivial false false true).1 :=
  ⟨((C5_flag_gating_amended env_trivial false false false).1 rfl).2.1,
   (C5_flag_gating_amended env_trivial false false true).2.2.2.1 rfl
     desktop_amd64_platform rfl⟩

/-! ## C6: tvOS forced off -/

/-- C6: the tvOS family is never generated in any invocation, whatever the
value of the `--disable-tvos` flag: no run stages, builds, configures, or
header-stages either tvOS descriptor. -/
theorem C6_tvos_never_generated (env : BuildEnv)
    (disable_ios disable_tvos disable_osx : Bool) (p : Platform)
    (hp : p = tvos_simulator64_platform ∨ p = tvos_device64_platform) :
    noEventsFor p (mainRun env disable_ios disable_tvos disable_osx).1 := by
  apply generate_noEventsFor
  intro hm
  rcases hp with rfl | rfl
  · exact enabled_no_tvos (!disable_osx) (!disable_ios) _ hm rfl
  · exact enabled_no_tvos (!disable_osx) (!disable_ios) _ hm rfl

/-- C6 witness: even with `--disable-tvos` absent (false), the tvOS device
descriptor produces no event. -/
theorem C6_tvos_never_generated_witness :
    noEventsFor tvos_device64_platform (mainRun env_trivial true false true).1 :=
  C6_tvos_never_generated env_trivial true false true tvos_device64_platform
    (Or.inr rfl)

/-! ## C10: the 32-bit i386 simulator descriptor is dead -/

/-- C10: `ios_simulator_platform` (i386), though present in the descriptor
table, is never staged and never built in any invocation -- its staging and
build calls are commented out -- while the other three iOS descriptors are
staged whenever the iOS family is enabled. -/
theorem C10_ios_i386_never_processed (env : BuildEnv)
    (disable_ios disable_tvos disable_osx : Bool) :
    noEventsFor ios_simulator_platform
      (mainRun env disable_ios disable_tvos disable_osx).1 ∧
    (disable_ios = false →
      Event.stagePlatform ios_simulator64_platform ∈
        (mainRun env disable_ios disable_tvos disable_osx).1 ∧
      Event.stagePlatform ios_device_platform ∈
        (mainRun env disable_ios disable_tvos disable_osx).1 ∧
      Event.stagePlatform ios_device64_platform ∈
        (mainRun env disable_ios disable_tvos disable_osx).1) := by
  constructor
  · exact generate_noEventsFor env _ _ _ _ (iosSim_not_enabled _ _ _)
  · intro h
    subst h
    exact ⟨stage_mem_generate env _ _ _ _ (by cases disable_osx <;> decide),
      stage_mem_generate env _ _ _ _ (by cases disable_osx <;> decide),
      stage_mem_generate env _ _ _ _ (by cases disable_osx <;> decide)⟩

/-- C10 witness: a full default run never touches the i386 simulator
descriptor but does stage the x86_64 simulator descriptor. -/
theorem C10_ios_i386_never_processed_witness :
    noEventsFor ios_simulator_platform (mainRun env_trivial false false false).1 ∧
    Event.stagePlatform ios_simulator64_platform ∈
      (mainRun env_trivial false false false).1 :=
  ⟨(C10_ios_i386_never_processed env_trivial false false false).1,
   ((C10_ios_i386_never_processed env_trivial false false false).2 rfl).1⟩
